import Mathlib

/-!
Shallow embedding of `gce_manager.py` (GCEManager): a fleet controller that
creates/deletes GCE instances and waits for asynchronous operations.

The cloud provider is modelled as an oracle (`Provider`); every remote call and
side effect (file read, insert, status lookup, sleep, delete, list) is recorded
in an event trace.  The unbounded polling loop of `wait_for_operation` is given
explicit fuel; running out of fuel yields `none` (the loop is still spinning).
-/

/-- The result dict of `zoneOperations().get(...).execute()`: a `status` field
and an optional `error` field. -/
structure OpResult where
  status : String
  error : Option String
  deriving DecidableEq, Repr

/-- Outcome of `wait_for_operation`:
`success r` models `return result` (the last result dict bound by the
`for result in results` scan); `opError e` models `raise Exception(result['error'])`;
`nameError` models the UnboundLocalError raised by `return result` when
`results` is empty and the scan loop never bound `result`. -/
inductive WaitOutcome where
  | success (res : OpResult)
  | opError (e : String)
  | nameError
  deriving DecidableEq, Repr

/-- The boot disk initializeParams of the insert body. -/
structure DiskInit where
  sourceImage : String
  deriving DecidableEq, Repr

/-- One disk entry of the insert body. -/
structure Disk where
  boot : Bool
  autoDelete : Bool
  initializeParams : DiskInit
  deriving DecidableEq, Repr

/-- One accessConfigs entry of a network interface. -/
structure AccessConfig where
  type : String
  name : String
  deriving DecidableEq, Repr

/-- One networkInterfaces entry of the insert body. -/
structure NetworkInterface where
  network : String
  accessConfigs : List AccessConfig
  deriving DecidableEq, Repr

/-- One serviceAccounts entry of the insert body. -/
structure ServiceAccount where
  email : String
  scopes : List String
  deriving DecidableEq, Repr

/-- One metadata item (a key/value pair) of the insert body. -/
structure MetaItem where
  key : String
  value : String
  deriving DecidableEq, Repr

/-- The `config` dict built by `create_instance` and passed as the insert body. -/
structure InstanceConfig where
  name : String
  machineType : String
  disks : List Disk
  networkInterfaces : List NetworkInterface
  serviceAccounts : List ServiceAccount
  metadataItems : List MetaItem
  deriving DecidableEq, Repr

/-- An instance as returned by the provider list call; `delete_all` only ever
reads its `name` field. -/
structure Instance where
  name : String
  deriving DecidableEq, Repr

/-- One observable effect of the manager: a startup-script file read, an
insert call, an operation-status lookup, a `time.sleep(1)`, a delete call,
or a list call. -/
inductive Event where
  | fileRead
  | insertCall (cfg : InstanceConfig)
  | getCall (op : String)
  | sleepTick
  | deleteCall (name : String)
  | listCall
  deriving DecidableEq, Repr

def countFileReads (evs : List Event) : Nat :=
  evs.countP fun e => match e with | Event.fileRead => true | _ => false

def countInserts (evs : List Event) : Nat :=
  evs.countP fun e => match e with | Event.insertCall _ => true | _ => false

def countGets (evs : List Event) : Nat :=
  evs.countP fun e => match e with | Event.getCall _ => true | _ => false

def countSleeps (evs : List Event) : Nat :=
  evs.countP fun e => match e with | Event.sleepTick => true | _ => false

def countDeletes (evs : List Event) : Nat :=
  evs.countP fun e => match e with | Event.deleteCall _ => true | _ => false

def countLists (evs : List Event) : Nat :=
  evs.countP fun e => match e with | Event.listCall => true | _ => false

/-- The insert bodies issued, in call order. -/
def insertedConfigs : List Event → List InstanceConfig
  | [] => []
  | Event.insertCall c :: es => c :: insertedConfigs es
  | _ :: es => insertedConfigs es

/-- The instance names of the insert bodies issued, in call order. -/
def insertedNames (evs : List Event) : List String :=
  (insertedConfigs evs).map InstanceConfig.name

/-- The instance names targeted by delete calls, in call order. -/
def deletedNames : List Event → List String
  | [] => []
  | Event.deleteCall n :: es => n :: deletedNames es
  | _ :: es => deletedNames es

/-- The scan `for result in results: if 'error' in result: raise ...`:
the first error payload in iteration order, if any. -/
def firstError : List OpResult → Option String
  | [] => none
  | r :: rs =>
    match r.error with
    | some e => some e
    | none => firstError rs

/-- What the all-DONE branch of the wait loop does with the collected results:
raise the first error found, else `return result` (the last result, still
bound from the scan loop), which is an unbound-local error when the list is
empty. -/
def doneOutcome (results : List OpResult) : WaitOutcome :=
  match firstError results with
  | some e => WaitOutcome.opError e
  | none =>
    match results.getLast? with
    | some r => WaitOutcome.success r
    | none => WaitOutcome.nameError

/-- The polling loop of `wait_for_operation`, started at tick `t` with the
given fuel.  Each round issues one status lookup per operation id (in input
order); if all report DONE the loop settles via `doneOutcome`, else it sleeps
one tick and repeats.  Returns the outcome, the tick of the final round, and
the event trace; `none` means the fuel ran out with the loop still spinning. -/
def waitFrom (env : Nat → String → OpResult) (ops : List String) :
    Nat → Nat → Option (WaitOutcome × Nat × List Event)
  | _, 0 => none
  | t, fuel + 1 =>
    let results := ops.map (env t)
    if results.all (fun r => r.status == "DONE") then
      some (doneOutcome results, t, ops.map Event.getCall)
    else
      match waitFrom env ops (t + 1) fuel with
      | none => none
      | some (o, tf, evs) =>
          some (o, tf, ops.map Event.getCall ++ Event.sleepTick :: evs)

/-- Method `wait_for_operation(operations)`: the polling loop started at tick 0. -/
def wait_for_operation (env : Nat → String → OpResult) (ops : List String)
    (fuel : Nat) : Option (WaitOutcome × Nat × List Event) :=
  waitFrom env ops 0 fuel

/-- The cloud provider oracle together with the startup-script file content.
`insert` is indexed by the call number (the remote endpoint may answer each
call differently, in particular fail at one of them) and returns the name of
the resulting operation; `deleteOp` returns the operation name of a delete
call; `listItems` is `none` when the list response has no `items` key; `opGet`
gives the operation-status lookup answer at each tick. -/
structure Provider where
  file : String
  insert : Nat → InstanceConfig → Except String String
  deleteOp : String → String
  listItems : Option (List Instance)
  opGet : Nat → String → OpResult

/-- The mutable state of a `GCEManager` object (logging is not modelled). -/
structure GCEManager where
  zone : String
  project : String
  disk_image : String
  machine_type : String
  number_of_instances : Nat
  instances : Option (List Instance)
  deriving DecidableEq, Repr

/-- Constructor `GCEManager.__init__`: stores the configuration and sets
`self.instances = None`. -/
def GCEManager.init (zone project disk_image machine_type : String)
    (number_of_instances : Nat) : GCEManager :=
  { zone := zone, project := project, disk_image := disk_image,
    machine_type := machine_type,
    number_of_instances := number_of_instances, instances := none }

/-- An error raised by a manager method:
a provider error propagated from an insert call, the `Exception(result['error'])`
of the waiter, the waiter's unbound-local error, the TypeError of iterating a
`None` roster, or the `GCEManagerError` of an empty list response. -/
inductive GError where
  | providerError (e : String)
  | opError (e : String)
  | nameError
  | typeError
  | gceManagerError (msg : String)
  deriving DecidableEq, Repr

/-- The deterministic instance name `"{0}-{1}".format(self.project, i)`. -/
def instName (m : GCEManager) (i : Nat) : String :=
  m.project ++ "-" ++ toString i

/-- The url `"projects/{0}/global/images/{1}".format(self.project, self.disk_image)`. -/
def diskImageUrl (m : GCEManager) : String :=
  "projects/" ++ m.project ++ "/global/images/" ++ m.disk_image

/-- The url `"zones/{0}/machineTypes/{1}".format(self.zone, self.machine_type)`. -/
def machineTypeUrl (m : GCEManager) : String :=
  "zones/" ++ m.zone ++ "/machineTypes/" ++ m.machine_type

/-- The `config` body built by `create_instance` from the configuration, the
startup-script file content just read, and the instance name. -/
def instanceConfig (m : GCEManager) (startup_script : String) (name : String) :
    InstanceConfig :=
  { name := name
    machineType := machineTypeUrl m
    disks := [{ boot := true, autoDelete := true,
                initializeParams := { sourceImage := diskImageUrl m } }]
    networkInterfaces := [{ network := "global/networks/default",
                            accessConfigs := [{ type := "ONE_TO_ONE_NAT",
                                                name := "External NAT" }] }]
    serviceAccounts := [{ email := "default",
                          scopes :=
                            ["https://www.googleapis.com/auth/devstorage.read_write",
                             "https://www.googleapis.com/auth/logging.write"] }]
    metadataItems := [{ key := "startup-script", value := startup_script },
                      { key := "bucket", value := m.project }] }

/-- Method `create_instance(name)` at insert-call number `i`: reads the startup-script
file, builds the config body and issues the insert call; returns the provider
answer together with the events performed. -/
def create_instance (m : GCEManager) (p : Provider) (i : Nat) (name : String) :
    Except String String × List Event :=
  let cfg := instanceConfig m p.file name
  (p.insert i cfg, [Event.fileRead, Event.insertCall cfg])

/-- Method `delete_instance(name)`: issues the delete call and returns the name of
the resulting operation together with the event performed. -/
def delete_instance (p : Provider) (name : String) : String × List Event :=
  (p.deleteOp name, [Event.deleteCall name])

/-- Method `list_instances()`: one list call; a response without `items` raises
`GCEManagerError`, otherwise the items are returned unmodified. -/
def list_instances (m : GCEManager) (p : Provider) :
    Except GError (List Instance) × List Event :=
  match p.listItems with
  | some items => (Except.ok items, [Event.listCall])
  | none =>
      (Except.error (GError.gceManagerError
        ("no instances available in project " ++ m.project ++ ", zone " ++
          m.zone)), [Event.listCall])

/-- The create loop of `create_all`, at insert-call number `i` with `n`
iterations left: each iteration runs `create_instance` on the name
`instName m i` and collects the returned operation name; the first failing
insert call aborts the loop, its provider error reported in the third
component. -/
def createLoop (m : GCEManager) (p : Provider) :
    Nat → Nat → List String × List Event × Option String
  | _, 0 => ([], [], none)
  | i, n + 1 =>
    match create_instance m p i (instName m i) with
    | (Except.error e, evs) => ([], evs, some e)
    | (Except.ok opId, evs) =>
      match createLoop m p (i + 1) n with
      | (ops, evs2, err) => (opId :: ops, evs ++ evs2, err)

/-- Method `create_all()`: run the create loop over `number_of_instances` names,
propagate a failing insert immediately, otherwise wait on the collected
operations and on success replace the roster by a fresh list call.  The result
is the final manager state, the error raised (if any) and the event trace;
`none` means the waiter ran out of fuel. -/
def create_all (m : GCEManager) (p : Provider) (fuel : Nat) :
    Option (GCEManager × Option GError × List Event) :=
  match createLoop m p 0 m.number_of_instances with
  | (_, evs, some e) => some (m, some (GError.providerError e), evs)
  | (ops, evs, none) =>
    match wait_for_operation p.opGet ops fuel with
    | none => none
    | some (WaitOutcome.opError e, _, wevs) =>
        some (m, some (GError.opError e), evs ++ wevs)
    | some (WaitOutcome.nameError, _, wevs) =>
        some (m, some GError.nameError, evs ++ wevs)
    | some (WaitOutcome.success _, _, wevs) =>
      match list_instances m p with
      | (Except.error err, levs) => some (m, some err, evs ++ wevs ++ levs)
      | (Except.ok items, levs) =>
          some ({ m with instances := some items }, none, evs ++ wevs ++ levs)

/-- Method `delete_all()`: iterate the roster (`for instance in self.instances`,
a TypeError when the roster is still `None`), issue one delete call per
roster entry in order, then wait on all the collected operation names.  The
roster field is not cleared afterwards. -/
def delete_all (m : GCEManager) (p : Provider) (fuel : Nat) :
    Option (GCEManager × Option GError × List Event) :=
  match m.instances with
  | none => some (m, some GError.typeError, [])
  | some roster =>
    let ops := roster.map (fun inst => p.deleteOp inst.name)
    let devs := roster.map (fun inst => Event.deleteCall inst.name)
    match wait_for_operation p.opGet ops fuel with
    | none => none
    | some (WaitOutcome.opError e, _, wevs) =>
        some (m, some (GError.opError e), devs ++ wevs)
    | some (WaitOutcome.nameError, _, wevs) =>
        some (m, some GError.nameError, devs ++ wevs)
    | some (WaitOutcome.success _, _, wevs) => some (m, none, devs ++ wevs)

/-- Predicate: `e` is the error payload of the first (in iteration order) result that
carries one, all earlier results carrying none. -/
def IsFirstError (l : List OpResult) (e : String) : Prop :=
  ∃ i, ∃ h : i < l.length, (l.get ⟨i, h⟩).error = some e ∧
    ∀ j, ∀ hj : j < l.length, j < i → (l.get ⟨j, hj⟩).error = none

/-- A provider view where both operations are DONE and both carry errors. -/
def c2env : Nat → String → OpResult := fun _ op =>
  if op == "a" then { status := "DONE", error := some "boom" }
  else { status := "DONE", error := some "later" }

/-- The fake provider of the spec's temporal test: every operation reports
PENDING for the first `k` ticks and DONE (with no error) from tick `k` on. -/
def envK (k : Nat) : Nat → String → OpResult := fun t _ =>
  if t < k then { status := "PENDING", error := none }
  else { status := "DONE", error := none }

/-- The operation names collected by the create loop from call number `i`
over `n` successful insert calls answered by `opf`. -/
def createOps (opf : Nat → String) : Nat → Nat → List String
  | _, 0 => []
  | i, n + 1 => opf i :: createOps opf (i + 1) n

/-- The events performed by the create loop from call number `i` over `n`
iterations: each iteration reads the startup-script file and issues one
insert call for the name `instName m i`. -/
def createEvents (m : GCEManager) (file : String) : Nat → Nat → List Event
  | _, 0 => []
  | i, n + 1 =>
    Event.fileRead ::
      Event.insertCall (instanceConfig m file (instName m i)) ::
        createEvents m file (i + 1) n

/-- A manager asked for two instances. -/
def c3m : GCEManager :=
  { zone := "z", project := "p", disk_image := "d", machine_type := "t",
    number_of_instances := 2, instances := none }

/-- A provider where every insert succeeds and every operation is DONE. -/
def c3p : Provider :=
  { file := "s", insert := fun _ _ => Except.ok "op", deleteOp := fun n => n,
    listItems := some [{ name := "a" }],
    opGet := fun _ _ => { status := "DONE", error := none } }

/-- The event trace of one `create_all` run with two instances. -/
def c3events : List Event :=
  match create_all c3m c3p 1 with
  | some (_, _, evs) => evs
  | none => []

/-- A manager configuration used for concrete runs. -/
def c4m : GCEManager :=
  { zone := "z", project := "p", disk_image := "d", machine_type := "t",
    number_of_instances := 1, instances := none }

/-- A provider whose list response has no items key. -/
def c4pNone : Provider :=
  { file := "s", insert := fun _ _ => Except.ok "op", deleteOp := fun n => n,
    listItems := none,
    opGet := fun _ _ => { status := "DONE", error := none } }

/-- A provider whose list response holds one instance. -/
def c4pSome : Provider :=
  { file := "s", insert := fun _ _ => Except.ok "op", deleteOp := fun n => n,
    listItems := some [{ name := "a" }],
    opGet := fun _ _ => { status := "DONE", error := none } }

/-- A manager asked for three instances, with three DONE operations. -/
def c5m : GCEManager :=
  { zone := "z", project := "p", disk_image := "d", machine_type := "t",
    number_of_instances := 3, instances := none }

/-- A provider where every insert succeeds and every operation is DONE. -/
def c5p : Provider :=
  { file := "s", insert := fun _ _ => Except.ok "op", deleteOp := fun n => n,
    listItems := some [{ name := "a" }],
    opGet := fun _ _ => { status := "DONE", error := none } }

/-- A manager asked for three instances. -/
def c6m : GCEManager :=
  { zone := "z", project := "p", disk_image := "d", machine_type := "t",
    number_of_instances := 3, instances := none }

/-- A provider whose first insert call succeeds and whose second fails. -/
def c6p : Provider :=
  { file := "s",
    insert := fun i _ => if i == 0 then Except.ok "op0"
      else Except.error "boom",
    deleteOp := fun n => n, listItems := some [{ name := "a" }],
    opGet := fun _ _ => { status := "DONE", error := none } }

/-- A manager whose roster holds one instance. -/
def c9m : GCEManager :=
  { zone := "z", project := "p", disk_image := "d", machine_type := "t",
    number_of_instances := 1, instances := some [{ name := "a" }] }

/-- A provider whose delete calls succeed and whose operations are DONE. -/
def c9p : Provider :=
  { file := "s", insert := fun _ _ => Except.ok "op",
    deleteOp := fun n => "del-" ++ n, listItems := some [{ name := "a" }],
    opGet := fun _ _ => { status := "DONE", error := none } }

/-- C1 (code behavior at the failing input): on an empty operation list the
wait loop exits in its first round with no status lookup and no sleep, but the
outcome is the unbound-local error of `return result`, not a successful
return. -/
theorem wait_for_operation_empty_raises (env : Nat → String → OpResult)
    (fuel : Nat) :
    wait_for_operation env [] (fuel + 1) =
      some (WaitOutcome.nameError, 0, []) := by
  rfl

/-- Whenever the wait loop returns, it does so from a round in which every
status lookup reported DONE, and the outcome is what the all-DONE branch
computes from that round's results. -/
theorem waitFrom_settles (env : Nat → String → OpResult) (ops : List String) :
    ∀ fuel t0 o t evs, waitFrom env ops t0 fuel = some (o, t, evs) →
      (ops.map (env t)).all (fun r => r.status == "DONE") = true ∧
        o = doneOutcome (ops.map (env t))
  | 0, t0, o, t, evs, h => by simp [waitFrom] at h
  | fuel + 1, t0, o, t, evs, h => by
    simp only [waitFrom] at h
    split at h
    · next hc =>
      simp only [Option.some.injEq, Prod.mk.injEq] at h
      obtain ⟨h1, h2, h3⟩ := h
      subst h2
      exact ⟨hc, h1.symm⟩
    · next hc =>
      split at h
      · exact absurd h (by simp)
      · next o2 t2 evs2 hrec =>
        simp only [Option.some.injEq, Prod.mk.injEq] at h
        obtain ⟨h1, h2, _⟩ := h
        rw [← h1, ← h2]
        exact waitFrom_settles env ops fuel (t0 + 1) o2 t2 evs2 hrec

theorem firstError_eq_none (l : List OpResult) (h : ∀ r ∈ l, r.error = none) :
    firstError l = none := by
  induction l with
  | nil => rfl
  | cons r rs ih =>
    have hr : r.error = none := h r (by simp)
    simp only [firstError, hr]
    exact ih fun x hx => h x (by simp [hx])

theorem firstError_of_isFirst (l : List OpResult) (e : String)
    (h : IsFirstError l e) : firstError l = some e := by
  induction l with
  | nil =>
    obtain ⟨i, hi, _⟩ := h
    exact absurd hi (by simp)
  | cons r rs ih =>
    obtain ⟨i, hi, he, hmin⟩ := h
    cases i with
    | zero =>
      have hr : r.error = some e := by simpa using he
      simp [firstError, hr]
    | succ i =>
      have hr : r.error = none :=
        hmin 0 (by simp) (Nat.succ_pos i)
      simp only [firstError, hr]
      refine ih ⟨i, Nat.lt_of_succ_lt_succ hi, he, ?_⟩
      intro j hj hji
      exact hmin (j + 1) (Nat.succ_lt_succ hj) (Nat.succ_lt_succ hji)

/-- C2: if the wait loop returns from a round whose results carry a first
error `e` (in the iteration order of the input sequence), the outcome is a
failure carrying exactly that error; errors on later operations of the batch
are discarded. -/
theorem wait_fails_with_first_error (env : Nat → String → OpResult)
    (ops : List String) (fuel : Nat) (o : WaitOutcome) (t : Nat)
    (evs : List Event) (e : String)
    (hw : wait_for_operation env ops fuel = some (o, t, evs))
    (he : IsFirstError (ops.map (env t)) e) :
    o = WaitOutcome.opError e := by
  obtain ⟨_, ho⟩ := waitFrom_settles env ops fuel 0 o t evs hw
  rw [ho, doneOutcome, firstError_of_isFirst _ e he]

/-- Witness for C2: with two erroring operations, the wait fails with the
first error only. -/
theorem wait_fails_with_first_error_witness :
    wait_for_operation c2env ["a", "b"] 1 =
        some (WaitOutcome.opError "boom", 0,
          [Event.getCall "a", Event.getCall "b"]) ∧
      WaitOutcome.opError "boom" = WaitOutcome.opError "boom" :=
  ⟨by decide,
    wait_fails_with_first_error c2env ["a", "b"] 1 (WaitOutcome.opError "boom")
      0 [Event.getCall "a", Event.getCall "b"] "boom" (by decide)
      ⟨0, by decide, by decide, fun j hj hji => absurd hji (Nat.not_lt_zero j)⟩⟩

theorem countGets_getCalls (ops : List String) :
    countGets (ops.map Event.getCall) = ops.length := by
  induction ops with
  | nil => rfl
  | cons a l ih =>
    simp only [List.map_cons, countGets, List.countP_cons] at *
    simp [ih]

theorem countSleeps_getCalls (ops : List String) :
    countSleeps (ops.map Event.getCall) = 0 := by
  induction ops with
  | nil => rfl
  | cons a l ih =>
    simp only [List.map_cons, countSleeps, List.countP_cons] at *
    simp [ih]

theorem doneOutcome_success (l : List OpResult) (hne : l ≠ [])
    (herr : ∀ r ∈ l, r.error = none) :
    ∃ r, doneOutcome l = WaitOutcome.success r := by
  have h1 := firstError_eq_none l herr
  cases hl : l.getLast? with
  | none => exact absurd (List.getLast?_eq_none_iff.mp hl) hne
  | some r => exact ⟨r, by simp [doneOutcome, h1, hl]⟩

/-- If in the current round every lookup reports DONE, and every DONE lookup
of that round carries no error, the loop exits this round successfully. -/
theorem waitFrom_exit (env : Nat → String → OpResult) (ops : List String)
    (t fuel : Nat) (hne : ops ≠ [])
    (h1 : ∀ op ∈ ops, (env t op).status = "DONE" → (env t op).error = none)
    (hc : (ops.map (env t)).all (fun r => r.status == "DONE") = true) :
    ∃ r, waitFrom env ops t (fuel + 1) =
        some (WaitOutcome.success r, t, ops.map Event.getCall) := by
  have herr : ∀ r ∈ ops.map (env t), r.error = none := by
    intro r hr
    obtain ⟨op, hop, rfl⟩ := List.mem_map.mp hr
    have hst := List.all_eq_true.mp hc _ hr
    exact h1 op hop (by simpa using hst)
  obtain ⟨r, hr⟩ := doneOutcome_success (ops.map (env t))
      (by simpa using hne) herr
  refine ⟨r, ?_⟩
  simp only [waitFrom]
  rw [if_pos hc, hr]

theorem waitFrom_envK (k : Nat) (ops : List String) (hops : ops ≠ []) :
    ∀ d t fuel, t + d = k → d + 1 ≤ fuel →
      ∃ r evs, waitFrom (envK k) ops t fuel =
          some (WaitOutcome.success r, k, evs) ∧
        countGets evs = (d + 1) * ops.length ∧ countSleeps evs = d
  | 0, t, fuel, ht, hf => by
    have htk : t = k := by omega
    cases fuel with
    | zero => omega
    | succ f =>
      have hc : (ops.map (envK k t)).all (fun r => r.status == "DONE") =
          true := by
        rw [List.all_eq_true]
        intro x hx
        obtain ⟨op, hop, rfl⟩ := List.mem_map.mp hx
        simp [envK, htk]
      obtain ⟨r, hr⟩ := waitFrom_exit (envK k) ops t f hops
          (fun op hop _ => by simp [envK]; split <;> rfl) hc
      refine ⟨r, ops.map Event.getCall, ?_, ?_, ?_⟩
      · rw [hr, htk]
      · simp [countGets_getCalls]
      · simp [countSleeps_getCalls]
  | d + 1, t, fuel, ht, hf => by
    cases fuel with
    | zero => omega
    | succ f =>
      have htk : t < k := by omega
      have henv : envK k t = fun _ =>
          { status := "PENDING", error := none } := by
        funext s
        simp [envK, htk]
      have hc : ¬ ((ops.map (envK k t)).all (fun r => r.status == "DONE") =
          true) := by
        rw [henv]
        cases ops with
        | nil => exact absurd rfl hops
        | cons a l => simp
      obtain ⟨r, evs2, hrec, hg, hs⟩ :=
        waitFrom_envK k ops hops d (t + 1) f (by omega) (by omega)
      refine ⟨r, ops.map Event.getCall ++ Event.sleepTick :: evs2, ?_, ?_, ?_⟩
      · simp only [waitFrom]
        rw [if_neg hc, hrec]
      · simp only [countGets, List.countP_append, List.countP_cons] at *
        simp only [hg]
        have hlen : List.countP
            (fun e => match e with | Event.getCall _ => true | _ => false)
            (ops.map Event.getCall) = ops.length := countGets_getCalls ops
        simp [hlen]
        ring
      · simp only [countSleeps, List.countP_append, List.countP_cons] at *
        have hlen : List.countP
            (fun e => match e with | Event.sleepTick => true | _ => false)
            (ops.map Event.getCall) = 0 := countSleeps_getCalls ops
        simp [hlen, hs]

/-- C7: against a provider that answers PENDING for `k` ticks and DONE
thereafter, on a non-empty batch the waiter returns only after exactly `k + 1`
polling rounds, each round issuing one status lookup per operation id (so
`(k + 1) * |ops|` lookups and `k` sleeps in total). -/
theorem wait_pending_k_rounds (ops : List String) (k fuel : Nat)
    (hops : ops ≠ []) (hf : k + 1 ≤ fuel) :
    ∃ r evs, wait_for_operation (envK k) ops fuel =
        some (WaitOutcome.success r, k, evs) ∧
      countGets evs = (k + 1) * ops.length ∧ countSleeps evs = k :=
  waitFrom_envK k ops hops k 0 fuel (by omega) hf

/-- Witness for C7: one operation, two PENDING-free ticks after one PENDING
tick; the waiter does two rounds (two lookups, one sleep). -/
theorem wait_pending_k_rounds_witness :
    ∃ r evs, wait_for_operation (envK 1) ["op"] 2 =
        some (WaitOutcome.success r, 1, evs) ∧
      countGets evs = (1 + 1) * (List.length ["op"]) ∧ countSleeps evs = 1 :=
  wait_pending_k_rounds ["op"] 1 2 (by decide) (by decide)

theorem waitFrom_eventually (env : Nat → String → OpResult)
    (ops : List String) (T : Nat) (hne : ops ≠ [])
    (h1 : ∀ t op, op ∈ ops → (env t op).status = "DONE" →
      (env t op).error = none)
    (h2 : ∀ op ∈ ops, (env T op).status = "DONE") :
    ∀ d t fuel, t + d = T → d + 1 ≤ fuel →
      ∃ r t2 evs, waitFrom env ops t fuel =
        some (WaitOutcome.success r, t2, evs)
  | 0, t, fuel, ht, hf => by
    have htk : t = T := by omega
    subst htk
    cases fuel with
    | zero => omega
    | succ f =>
      have hc : (ops.map (env t)).all (fun r => r.status == "DONE") =
          true := by
        rw [List.all_eq_true]
        intro x hx
        obtain ⟨op, hop, rfl⟩ := List.mem_map.mp hx
        simp [h2 op hop]
      obtain ⟨r, hr⟩ := waitFrom_exit env ops t f hne
          (fun op hop => h1 t op hop) hc
      exact ⟨r, t, ops.map Event.getCall, hr⟩
  | d + 1, t, fuel, ht, hf => by
    cases fuel with
    | zero => omega
    | succ f =>
      by_cases hc : (ops.map (env t)).all (fun r => r.status == "DONE") = true
      · obtain ⟨r, hr⟩ := waitFrom_exit env ops t f hne
            (fun op hop => h1 t op hop) hc
        exact ⟨r, t, ops.map Event.getCall, hr⟩
      · obtain ⟨r, t2, evs2, hrec⟩ :=
          waitFrom_eventually env ops T hne h1 h2 d (t + 1) f (by omega)
            (by omega)
        refine ⟨r, t2, ops.map Event.getCall ++ Event.sleepTick :: evs2, ?_⟩
        simp only [waitFrom]
        rw [if_neg hc, hrec]

/-- C8: on a non-empty batch whose lookups never report DONE with an error
and eventually (from some tick on) all report DONE, the waiter terminates
(for enough fuel) and its outcome is a successful return. -/
theorem wait_eventually_success (env : Nat → String → OpResult)
    (ops : List String) (T : Nat) (hne : ops ≠ [])
    (h1 : ∀ t op, op ∈ ops → (env t op).status = "DONE" →
      (env t op).error = none)
    (h2 : ∀ op ∈ ops, (env T op).status = "DONE") :
    ∃ fuel r t evs, wait_for_operation env ops fuel =
      some (WaitOutcome.success r, t, evs) := by
  obtain ⟨r, t2, evs, h⟩ :=
    waitFrom_eventually env ops T hne h1 h2 T 0 (T + 1) (by omega) (by omega)
  exact ⟨T + 1, r, t2, evs, h⟩

/-- Witness for C8: a single operation that reports DONE with no error from
tick 0 on. -/
theorem wait_eventually_success_witness :
    ∃ fuel r t evs,
      wait_for_operation (fun _ _ => { status := "DONE", error := none })
          ["op"] fuel = some (WaitOutcome.success r, t, evs) :=
  wait_eventually_success (fun _ _ => { status := "DONE", error := none })
    ["op"] 0 (by decide) (fun _ _ _ _ => rfl) (fun _ _ => rfl)

/-- When every insert call succeeds, the create loop runs to completion and
its trace is `createEvents`. -/
theorem createLoop_ok (m : GCEManager) (p : Provider) (opf : Nat → String)
    (hins : ∀ j c, p.insert j c = Except.ok (opf j)) :
    ∀ n i, createLoop m p i n =
      (createOps opf i n, createEvents m p.file i n, none)
  | 0, _ => rfl
  | n + 1, i => by
    simp only [createLoop, create_instance, hins]
    rw [createLoop_ok m p opf hins n (i + 1)]
    simp [createOps, createEvents]

/-- When the insert calls before call number `k` succeed and call `k` fails,
the create loop aborts at call `k`: it performs the `k - i` earlier
iterations and the failing one, and reports the provider error. -/
theorem createLoop_fail (m : GCEManager) (p : Provider) (opf : Nat → String)
    (k : Nat) (e : String)
    (hpre : ∀ j c, j < k → p.insert j c = Except.ok (opf j))
    (hfail : ∀ c, p.insert k c = Except.error e) :
    ∀ n i, i ≤ k → k < i + n →
      createLoop m p i n =
        (createOps opf i (k - i), createEvents m p.file i (k - i + 1), some e)
  | 0, i, _, hk => absurd hk (by omega)
  | n + 1, i, hik, hk => by
    by_cases hikk : i = k
    · subst hikk
      simp only [createLoop, create_instance, hfail]
      simp [createOps, createEvents]
    · have hlt : i < k := by omega
      simp only [createLoop, create_instance, hpre i _ hlt]
      rw [createLoop_fail m p opf k e hpre hfail n (i + 1) (by omega)
        (by omega)]
      have h1 : k - i = (k - (i + 1)) + 1 := by omega
      rw [h1]
      simp [createOps, createEvents]

theorem countFileReads_createEvents (m : GCEManager) (f : String) :
    ∀ n i, countFileReads (createEvents m f i n) = n
  | 0, _ => rfl
  | n + 1, i => by
    have ih := countFileReads_createEvents m f n (i + 1)
    simp only [createEvents, countFileReads, List.countP_cons] at *
    simp [ih]

theorem countInserts_createEvents (m : GCEManager) (f : String) :
    ∀ n i, countInserts (createEvents m f i n) = n
  | 0, _ => rfl
  | n + 1, i => by
    have ih := countInserts_createEvents m f n (i + 1)
    simp only [createEvents, countInserts, List.countP_cons] at *
    simp [ih]

theorem countGets_createEvents (m : GCEManager) (f : String) :
    ∀ n i, countGets (createEvents m f i n) = 0
  | 0, _ => rfl
  | n + 1, i => by
    have ih := countGets_createEvents m f n (i + 1)
    simp only [createEvents, countGets, List.countP_cons] at *
    simp [ih]

theorem countDeletes_createEvents (m : GCEManager) (f : String) :
    ∀ n i, countDeletes (createEvents m f i n) = 0
  | 0, _ => rfl
  | n + 1, i => by
    have ih := countDeletes_createEvents m f n (i + 1)
    simp only [createEvents, countDeletes, List.countP_cons] at *
    simp [ih]

theorem countLists_createEvents (m : GCEManager) (f : String) :
    ∀ n i, countLists (createEvents m f i n) = 0
  | 0, _ => rfl
  | n + 1, i => by
    have ih := countLists_createEvents m f n (i + 1)
    simp only [createEvents, countLists, List.countP_cons] at *
    simp [ih]

theorem insertedConfigs_createEvents (m : GCEManager) (f : String) :
    ∀ n i, insertedConfigs (createEvents m f i n) =
      (List.range' i n).map (fun j => instanceConfig m f (instName m j))
  | 0, _ => rfl
  | n + 1, i => by
    have ih := insertedConfigs_createEvents m f n (i + 1)
    simp only [createEvents, insertedConfigs, List.range'_succ, List.map_cons]
    rw [ih]

theorem insertedConfigs_append (a b : List Event) :
    insertedConfigs (a ++ b) = insertedConfigs a ++ insertedConfigs b := by
  induction a with
  | nil => rfl
  | cons e es ih =>
    cases e <;> simp [insertedConfigs, ih]

theorem deletedNames_append (a b : List Event) :
    deletedNames (a ++ b) = deletedNames a ++ deletedNames b := by
  induction a with
  | nil => rfl
  | cons e es ih =>
    cases e <;> simp [deletedNames, ih]

theorem getCalls_no_other (ops : List String) :
    countFileReads (ops.map Event.getCall) = 0 ∧
      countInserts (ops.map Event.getCall) = 0 ∧
      countDeletes (ops.map Event.getCall) = 0 ∧
      countLists (ops.map Event.getCall) = 0 ∧
      insertedConfigs (ops.map Event.getCall) = [] ∧
      deletedNames (ops.map Event.getCall) = [] := by
  induction ops with
  | nil => exact ⟨rfl, rfl, rfl, rfl, rfl, rfl⟩
  | cons a l ih =>
    obtain ⟨h1, h2, h3, h4, h5, h6⟩ := ih
    simp only [List.map_cons, countFileReads, countInserts, countDeletes,
      countLists, List.countP_cons, insertedConfigs, deletedNames] at *
    simp [h1, h2, h3, h4, h5, h6]

/-- A wait-loop trace consists of status lookups and sleeps only: it contains
no file read, no insert call, no delete call and no list call. -/
theorem waitFrom_trace_polls_only (env : Nat → String → OpResult)
    (ops : List String) :
    ∀ fuel t0 o t evs, waitFrom env ops t0 fuel = some (o, t, evs) →
      countFileReads evs = 0 ∧ countInserts evs = 0 ∧
        countDeletes evs = 0 ∧ countLists evs = 0 ∧
        insertedConfigs evs = [] ∧ deletedNames evs = []
  | 0, t0, o, t, evs, h => by simp [waitFrom] at h
  | fuel + 1, t0, o, t, evs, h => by
    simp only [waitFrom] at h
    split at h
    · next hc =>
      simp only [Option.some.injEq, Prod.mk.injEq] at h
      obtain ⟨_, _, h3⟩ := h
      rw [← h3]
      exact getCalls_no_other ops
    · next hc =>
      split at h
      · exact absurd h (by simp)
      · next o2 t2 evs2 hrec =>
        simp only [Option.some.injEq, Prod.mk.injEq] at h
        obtain ⟨_, _, h3⟩ := h
        obtain ⟨g1, g2, g3, g4, g5, g6⟩ :=
          waitFrom_trace_polls_only env ops fuel (t0 + 1) o2 t2 evs2 hrec
        obtain ⟨m1, m2, m3, m4, m5, m6⟩ := getCalls_no_other ops
        rw [← h3]
        refine ⟨?_, ?_, ?_, ?_, ?_, ?_⟩ <;>
          simp only [countFileReads, countInserts, countDeletes, countLists,
            List.countP_append, List.countP_cons, insertedConfigs_append,
            deletedNames_append, insertedConfigs, deletedNames] at * <;>
          simp [g1, g2, g3, g4, g5, g6, m1, m2, m3, m4, m5, m6]

/-- C4: `list_instances` raises the named GCEManagerError when the provider
response has no items (zero instances), and returns the provider's items
unmodified, in provider order, when there is at least one. -/
theorem list_instances_spec (m : GCEManager) (p : Provider) :
    (p.listItems = none →
      list_instances m p =
        (Except.error (GError.gceManagerError
          ("no instances available in project " ++ m.project ++ ", zone " ++
            m.zone)), [Event.listCall])) ∧
    (∀ items, items ≠ [] → p.listItems = some items →
      list_instances m p = (Except.ok items, [Event.listCall])) := by
  constructor
  · intro h
    simp [list_instances, h]
  · intro items _ h
    simp [list_instances, h]

/-- Witness for C4: both branches at concrete providers. -/
theorem list_instances_spec_witness :
    list_instances c4m c4pNone =
        (Except.error (GError.gceManagerError
          ("no instances available in project " ++ c4m.project ++ ", zone " ++
            c4m.zone)), [Event.listCall]) ∧
      list_instances c4m c4pSome =
        (Except.ok [{ name := "a" }], [Event.listCall]) :=
  ⟨(list_instances_spec c4m c4pNone).1 rfl,
    (list_instances_spec c4m c4pSome).2 [{ name := "a" }] (by decide) rfl⟩

/-- C6: if the insert calls before call number `k` succeed and call `k`
raises a provider error, `create_all` propagates that error at once: exactly
`k + 1` insert calls were issued (the failing one included), no delete call
and no status lookup is issued, no list call happens, and the manager state
(the roster in particular) is left unchanged. -/
theorem create_all_fail_fast (m : GCEManager) (p : Provider) (fuel : Nat)
    (opf : Nat → String) (k : Nat) (e : String)
    (hpre : ∀ j c, j < k → p.insert j c = Except.ok (opf j))
    (hfail : ∀ c, p.insert k c = Except.error e)
    (hk : k < m.number_of_instances) :
    ∃ evs, create_all m p fuel =
        some (m, some (GError.providerError e), evs) ∧
      countInserts evs = k + 1 ∧ countDeletes evs = 0 ∧
      countGets evs = 0 ∧ countLists evs = 0 := by
  have hcl := createLoop_fail m p opf k e hpre hfail m.number_of_instances 0
      (by omega) (by omega)
  rw [Nat.sub_zero] at hcl
  refine ⟨createEvents m p.file 0 (k + 1), ?_, ?_, ?_, ?_, ?_⟩
  · simp only [create_all, hcl]
  · exact countInserts_createEvents m p.file (k + 1) 0
  · exact countDeletes_createEvents m p.file (k + 1) 0
  · exact countGets_createEvents m p.file (k + 1) 0
  · exact countLists_createEvents m p.file (k + 1) 0

/-- Witness for C6: the second of three insert calls fails. -/
theorem create_all_fail_fast_witness :
    ∃ evs, create_all c6m c6p 1 =
        some (c6m, some (GError.providerError "boom"), evs) ∧
      countInserts evs = 1 + 1 ∧ countDeletes evs = 0 ∧
      countGets evs = 0 ∧ countLists evs = 0 :=
  create_all_fail_fast c6m c6p 1 (fun _ => "op0") 1 "boom"
    (fun j c hj => by
      have hj0 : j = 0 := by omega
      subst hj0
      rfl)
    (fun c => rfl) (by decide)

/-- C10: on a freshly constructed manager the roster field is `None`, so
`delete_all` always fails by iterating `None` (a TypeError), before issuing
any delete call. -/
theorem delete_all_fresh_fails (zone project disk_image machine_type : String)
    (n : Nat) (p : Provider) (fuel : Nat) :
    delete_all (GCEManager.init zone project disk_image machine_type n) p
        fuel =
      some (GCEManager.init zone project disk_image machine_type n,
        some GError.typeError, []) := rfl

/-- C5: with all insert calls succeeding, `create_all` on instanceCount N
issues exactly N insert calls, named `{project}-{i}` for i = 0..N-1 in that
order; after the wait succeeds it issues exactly one list call and replaces
the roster with the list result. -/
theorem create_all_calls (m : GCEManager) (p : Provider) (fuel : Nat)
    (opf : Nat → String) (r : OpResult) (t : Nat) (wevs : List Event)
    (items : List Instance)
    (hins : ∀ j c, p.insert j c = Except.ok (opf j))
    (hw : wait_for_operation p.opGet (createOps opf 0 m.number_of_instances)
        fuel = some (WaitOutcome.success r, t, wevs))
    (hlist : p.listItems = some items) :
    ∃ evs, create_all m p fuel =
        some ({ m with instances := some items }, none, evs) ∧
      countInserts evs = m.number_of_instances ∧
      insertedNames evs = (List.range m.number_of_instances).map (instName m) ∧
      countLists evs = 1 := by
  have hcl := createLoop_ok m p opf hins m.number_of_instances 0
  have hw2 : waitFrom p.opGet (createOps opf 0 m.number_of_instances) 0 fuel =
      some (WaitOutcome.success r, t, wevs) := hw
  obtain ⟨w1, w2, w3, w4, w5, w6⟩ :=
    waitFrom_trace_polls_only p.opGet (createOps opf 0 m.number_of_instances)
      fuel 0 (WaitOutcome.success r) t wevs hw2
  refine ⟨createEvents m p.file 0 m.number_of_instances ++ wevs ++
    [Event.listCall], ?_, ?_, ?_, ?_⟩
  · simp only [create_all, hcl, hw, list_instances, hlist]
  · simp only [countInserts, List.countP_append] at *
    have hce := countInserts_createEvents m p.file m.number_of_instances 0
    simp only [countInserts] at hce
    simp [hce, w2]
  · simp only [insertedNames, insertedConfigs_append,
      insertedConfigs_createEvents, w5, insertedConfigs, List.append_nil,
      List.map_append, List.map_map, List.range_eq_range']
    rfl
  · simp only [countLists, List.countP_append] at *
    have hce := countLists_createEvents m p.file m.number_of_instances 0
    simp only [countLists] at hce
    simp [hce, w4]

/-- Witness for C5 at instanceCount 3. -/
theorem create_all_calls_witness :
    ∃ evs, create_all c5m c5p 1 =
        some ({ c5m with instances := some [{ name := "a" }] }, none, evs) ∧
      countInserts evs = c5m.number_of_instances ∧
      insertedNames evs =
        (List.range c5m.number_of_instances).map (instName c5m) ∧
      countLists evs = 1 :=
  create_all_calls c5m c5p 1 (fun _ => "op")
    { status := "DONE", error := none } 0
    [Event.getCall "op", Event.getCall "op", Event.getCall "op"]
    [{ name := "a" }] (fun j c => rfl) (by decide) rfl

/-- Counterexample to C3: in a single `create_all` invocation with
instanceCount 2, the startup-script file is read twice (once inside each
`create_instance` call), not exactly once. -/
theorem create_all_reads_file_cex :
    countFileReads c3events = 2 ∧ ¬ countFileReads c3events = 1 := by
  decide

theorem createTrace_facts (m : GCEManager) (f : String) (n : Nat)
    (wevs rest : List Event)
    (hwf : countFileReads wevs = 0) (hwc : insertedConfigs wevs = [])
    (hrf : countFileReads rest = 0) (hrc : insertedConfigs rest = []) :
    countFileReads (createEvents m f 0 n ++ wevs ++ rest) = n ∧
      ∀ cfg ∈ insertedConfigs (createEvents m f 0 n ++ wevs ++ rest),
        cfg.metadataItems =
          [{ key := "startup-script", value := f },
           { key := "bucket", value := m.project }] := by
  constructor
  · have hce := countFileReads_createEvents m f n 0
    simp only [countFileReads, List.countP_append] at *
    simp [hce, hwf, hrf]
  · intro cfg hcfg
    simp only [insertedConfigs_append, insertedConfigs_createEvents, hwc, hrc,
      List.append_nil, List.mem_map] at hcfg
    obtain ⟨j, _, rfl⟩ := hcfg
    rfl

/-- C3 (amended): when every insert call succeeds, a `create_all` run reads
the startup-script file once per `create_instance` call, that is
`number_of_instances` times in total (not once overall); the file's content
as read is embedded verbatim in each issued insert body's metadata under the
key `startup-script` (alongside the `bucket` item). -/
theorem create_all_reads_file_per_instance (m : GCEManager) (p : Provider)
    (fuel : Nat) (opf : Nat → String) (m2 : GCEManager) (err : Option GError)
    (evs : List Event)
    (hins : ∀ j c, p.insert j c = Except.ok (opf j))
    (h : create_all m p fuel = some (m2, err, evs)) :
    countFileReads evs = m.number_of_instances ∧
      ∀ cfg ∈ insertedConfigs evs,
        cfg.metadataItems =
          [{ key := "startup-script", value := p.file },
           { key := "bucket", value := m.project }] := by
  have hcl := createLoop_ok m p opf hins m.number_of_instances 0
  simp only [create_all, hcl] at h
  cases hw : wait_for_operation p.opGet
      (createOps opf 0 m.number_of_instances) fuel with
  | none =>
    rw [hw] at h
    exact absurd h (by simp)
  | some res =>
    obtain ⟨o, t, wevs⟩ := res
    rw [hw] at h
    have hw2 : waitFrom p.opGet (createOps opf 0 m.number_of_instances) 0
        fuel = some (o, t, wevs) := hw
    obtain ⟨w1, _, _, _, w5, _⟩ :=
      waitFrom_trace_polls_only p.opGet
        (createOps opf 0 m.number_of_instances) fuel 0 o t wevs hw2
    cases o with
    | opError e =>
      simp only [Option.some.injEq, Prod.mk.injEq] at h
      obtain ⟨_, _, h3⟩ := h
      rw [← h3, ← List.append_nil
        (createEvents m p.file 0 m.number_of_instances ++ wevs)]
      exact createTrace_facts m p.file m.number_of_instances wevs [] w1 w5
        rfl rfl
    | nameError =>
      simp only [Option.some.injEq, Prod.mk.injEq] at h
      obtain ⟨_, _, h3⟩ := h
      rw [← h3, ← List.append_nil
        (createEvents m p.file 0 m.number_of_instances ++ wevs)]
      exact createTrace_facts m p.file m.number_of_instances wevs [] w1 w5
        rfl rfl
    | success r2 =>
      cases hl : p.listItems with
      | none =>
        simp only [list_instances, hl, Option.some.injEq, Prod.mk.injEq] at h
        obtain ⟨_, _, h3⟩ := h
        rw [← h3]
        exact createTrace_facts m p.file m.number_of_instances wevs
          [Event.listCall] w1 w5 rfl rfl
      | some items =>
        simp only [list_instances, hl, Option.some.injEq, Prod.mk.injEq] at h
        obtain ⟨_, _, h3⟩ := h
        rw [← h3]
        exact createTrace_facts m p.file m.number_of_instances wevs
          [Event.listCall] w1 w5 rfl rfl

/-- Witness for the amended C3: two instances, two file reads, both insert
bodies embedding the file content. -/
theorem create_all_reads_file_per_instance_witness :
    countFileReads c3events = c3m.number_of_instances ∧
      ∀ cfg ∈ insertedConfigs c3events,
        cfg.metadataItems =
          [{ key := "startup-script", value := c3p.file },
           { key := "bucket", value := c3m.project }] :=
  create_all_reads_file_per_instance c3m c3p 1 (fun _ => "op")
    { c3m with instances := some [{ name := "a" }] } none c3events
    (fun j c => rfl) (by decide)

theorem deleteCalls_facts (roster : List Instance) :
    countDeletes (roster.map (fun inst => Event.deleteCall inst.name)) =
        roster.length ∧
      deletedNames (roster.map (fun inst => Event.deleteCall inst.name)) =
        roster.map Instance.name ∧
      countInserts (roster.map (fun inst => Event.deleteCall inst.name)) = 0 ∧
      countLists (roster.map (fun inst => Event.deleteCall inst.name)) = 0 := by
  induction roster with
  | nil => exact ⟨rfl, rfl, rfl, rfl⟩
  | cons a l ih =>
    obtain ⟨h1, h2, h3, h4⟩ := ih
    simp only [List.map_cons, countDeletes, countInserts, countLists,
      List.countP_cons, deletedNames] at *
    simp [h1, h2, h3, h4]

/-- C9: on a roster of M instances, `delete_all` issues exactly M delete
calls, one per roster instance in roster order, then invokes the waiter once
on the M resulting operation names; when that wait succeeds the manager state
is returned entirely unchanged — in particular the roster field still holds
the same M (now stale) entries, and zone, project, disk image, machine type
and instance count are untouched. -/
theorem delete_all_calls (m : GCEManager) (p : Provider) (fuel : Nat)
    (roster : List Instance) (r : OpResult) (t : Nat) (wevs : List Event)
    (hro : m.instances = some roster)
    (hw : wait_for_operation p.opGet
        (roster.map (fun inst => p.deleteOp inst.name)) fuel =
      some (WaitOutcome.success r, t, wevs)) :
    ∃ evs, delete_all m p fuel = some (m, none, evs) ∧
      countDeletes evs = roster.length ∧
      deletedNames evs = roster.map Instance.name ∧
      countInserts evs = 0 ∧ countLists evs = 0 := by
  have hw2 : waitFrom p.opGet (roster.map (fun inst => p.deleteOp inst.name))
      0 fuel = some (WaitOutcome.success r, t, wevs) := hw
  obtain ⟨_, w2, w3, w4, _, w6⟩ :=
    waitFrom_trace_polls_only p.opGet
      (roster.map (fun inst => p.deleteOp inst.name)) fuel 0
      (WaitOutcome.success r) t wevs hw2
  obtain ⟨d1, d2, d3, d4⟩ := deleteCalls_facts roster
  refine ⟨roster.map (fun inst => Event.deleteCall inst.name) ++ wevs,
    ?_, ?_, ?_, ?_, ?_⟩
  · simp only [delete_all, hro, hw]
  · simp only [countDeletes, List.countP_append] at *
    simp [d1, w3]
  · rw [deletedNames_append, d2, w6, List.append_nil]
  · simp only [countInserts, List.countP_append] at *
    simp [d3, w2]
  · simp only [countLists, List.countP_append] at *
    simp [d4, w4]

/-- Witness for C9 on a one-instance roster. -/
theorem delete_all_calls_witness :
    ∃ evs, delete_all c9m c9p 1 = some (c9m, none, evs) ∧
      countDeletes evs = (([{ name := "a" }] : List Instance)).length ∧
      deletedNames evs =
        ([{ name := "a" }] : List Instance).map Instance.name ∧
      countInserts evs = 0 ∧ countLists evs = 0 :=
  delete_all_calls c9m c9p 1 [{ name := "a" }]
    { status := "DONE", error := none } 0 [Event.getCall "del-a"] rfl
    (by decide)
